import Mathlib

set_option linter.unusedVariables false

/-! Shallow embedding of the PROTON image-generation client
(`src/services/geminiService.ts`, class `QuantumAI`).

JSON values are modelled by an inductive type; JavaScript numbers are
embedded as rationals (the source only compares them against the literals
`1.5` and `0.8`, written `3/2` and `4/5` below; the comparisons are
order-faithful).  JavaScript `undefined` is `Option.none`; JavaScript
truthiness is the `Json.truthy` predicate.  The HTTP layer is abstracted by
an environment fixing the initial response and the response served to the
i-th poll attempt: everything the client observes of the network is in that
environment. -/

inductive Json where
  | str (s : String)
  | num (q : ℚ)
  | bool (b : Bool)
  | null
  | arr (elems : List Json)
  | obj (fields : List (String × Json))

/-- JavaScript truthiness of a JSON value (`undefined` is handled via
`Option` and is always falsy). -/
def Json.truthy : Json → Bool
  | .str s => decide (s ≠ "")
  | .num q => decide (q ≠ 0)
  | .bool b => b
  | .null => false
  | .arr _ => true
  | .obj _ => true

/-- Truthiness of a possibly-undefined value. -/
def truthyOpt : Option Json → Bool
  | none => false
  | some v => v.truthy

/-- JavaScript `a || b` on possibly-undefined values: the first operand if
truthy, otherwise the second operand as-is (which may itself be undefined
or falsy). -/
def jsOr (a b : Option Json) : Option Json :=
  match a with
  | some v => if v.truthy then some v else b
  | none => b

/-- The field with the given key in an object's field list (JSON object
keys are unique after parsing). -/
def findField : List (String × Json) → String → Option Json
  | [], _ => none
  | (k, v) :: fs, key => if k == key then some v else findField fs key

/-- Property access `x?.k` (also `x.k` for `x` already known to be an
object): undefined on everything but objects. -/
def getField : Json → String → Option Json
  | .obj fs, key => findField fs key
  | _, _ => none

/-- Index access `x?.[0]` through an optional chain: first array element,
property "0" of an object, first character of a string, undefined
otherwise (and on null/undefined by short-circuit). -/
def jsIndex0 : Option Json → Option Json
  | some (.arr xs) => xs.head?
  | some (.obj fs) => findField fs "0"
  | some (.str s) =>
      match s.data with
      | [] => none
      | c :: _ => some (.str (String.singleton c))
  | _ => none

/-- The candidate `Array.isArray(data?.artifacts) ? data.artifacts[0]?.base64 : undefined`
(geminiService.ts line 44). -/
def artifactsCand (data : Json) : Option Json :=
  match getField data "artifacts" with
  | some (.arr xs) =>
      match xs.head? with
      | some v => getField v "base64"
      | none => none
  | _ => none

/-- The candidate `Array.isArray(data?.data) ? data.data[0]?.b64_json || data.data[0]?.url
: undefined` (geminiService.ts line 45). -/
def dataCand (data : Json) : Option Json :=
  match getField data "data" with
  | some (.arr xs) =>
      jsOr
        (match xs.head? with
         | some v => getField v "b64_json"
         | none => none)
        (match xs.head? with
         | some v => getField v "url"
         | none => none)
  | _ => none

/-- Strict comparison `d?.status === s` for a string literal `s` (strict equality: true only
when the status field is exactly that string). -/
def statusIs (d : Json) (s : String) : Bool :=
  match getField d "status" with
  | some (.str t) => t == s
  | _ => false

/-- Truthiness of the field `k` of `d` (`d?.k` used in a boolean position). -/
def truthyField (d : Json) (k : String) : Bool :=
  truthyOpt (getField d k)

mutual

/-- JavaScript string coercion `String(v)` as used by template literals.
Formatting of non-integer numbers is abstracted (the modelled payloads
interpolate strings only). -/
def jsToStr : Json → String
  | .str s => s
  | .num q => toString q.num ++ (if q.den = 1 then "" else "/" ++ toString q.den)
  | .bool b => cond b "true" "false"
  | .null => "null"
  | .arr xs => String.intercalate "," (jsToStrList xs)
  | .obj _ => "[object Object]"

/-- Elementwise coercion for `Array.prototype.join` (null elements render
empty). -/
def jsToStrList : List Json → List String
  | [] => []
  | .null :: xs => "" :: jsToStrList xs
  | x :: xs => jsToStr x :: jsToStrList xs

end

/-- Minimal JSON string escaping (quote and backslash; control characters
are not produced by the payloads considered here). -/
def jsonEscape (s : String) : String :=
  String.join (s.data.map fun c =>
    if c = '"' then "\\\"" else if c = '\\' then "\\\\" else String.singleton c)

mutual

/-- Model of `JSON.stringify` on a parsed JSON value (object key order is the parse
order; non-integer number formatting abstracted as in `jsToStr`). -/
def stringify : Json → String
  | .str s => "\"" ++ jsonEscape s ++ "\""
  | .num q => toString q.num ++ (if q.den = 1 then "" else "/" ++ toString q.den)
  | .bool b => cond b "true" "false"
  | .null => "null"
  | .arr xs => "[" ++ String.intercalate "," (stringifyList xs) ++ "]"
  | .obj fs => "\x7b" ++ String.intercalate "," (stringifyFields fs) ++ "\x7d"

def stringifyList : List Json → List String
  | [] => []
  | x :: xs => stringify x :: stringifyList xs

def stringifyFields : List (String × Json) → List String
  | [] => []
  | (k, v) :: fs => ("\"" ++ jsonEscape k ++ "\":" ++ stringify v) :: stringifyFields fs

end

/-- One HTTP exchange as the client observes it: transport success flag, the
raw body text, and the result of parsing the body as JSON (`none`: the body
is not valid JSON). -/
structure HttpResponse where
  ok : Bool
  text : String
  json : Option Json

/-- The configuration the client reads from its environment variables (the
parts the modelled control flow consults: `VITE_SD_API_KEY` and
`VITE_SD_API_KEY_HEADER`). -/
structure Config where
  apiKey : String
  apiKeyHeader : String

/-- The network as seen by one `requestAndPoll` call: the initial POST's
response, and the response served to the i-th poll attempt (0-based). -/
structure PollEnv where
  initial : HttpResponse
  polls : Nat → HttpResponse

/-- The distinct failure exits of `requestAndPoll`; each constructor carries
the data interpolated into the thrown `Error`'s message.
`initialParseFailed` is the SyntaxError propagating out of the uncaught
`response.json()` on the initial response.  `bodyAlreadyRead` is the
TypeError raised when the catch block for an unparsable poll body calls
`pollRes.text()` after `pollRes.json()` has already consumed the body. -/
inductive GenError where
  | requestFailed (text : String)
  | initialParseFailed
  | providerError (msg : String)
  | pollFailed (text : String)
  | bodyAlreadyRead
  | pollError (msg : String)
  | noImageAfterPolling (payload : String)
  | noImage (payload : String)

/-- JavaScript `s.startsWith(pre)` (character-prefix test, modelled over the
character data of the string). -/
def jsStartsWith (s pre : String) : Bool :=
  pre.data.isPrefixOf s.data

/-- JavaScript `s.toLowerCase()` for the ASCII range exercised by the header
comparison (modelled charwise over the string data). -/
def jsToLowerCase (s : String) : String :=
  String.mk (s.data.map Char.toLower)

/-- Fallback `v || dflt` rendered as an `Error` message string: the string coercion
of `v` when truthy, otherwise the default. -/
def errMsg (v : Option Json) (dflt : String) : String :=
  match v with
  | some j => if j.truthy then jsToStr j else dflt
  | none => dflt

/-- The message of the error thrown on an initial error response
(geminiService.ts lines 70-74): `msg = message || error`,
`detail = error_log?.error`, rendered with the source's two defaults. -/
def initialErrorMsg (d : Json) : String :=
  let msg := jsOr (getField d "message") (getField d "error")
  match
    (match getField d "error_log" with
     | some el => getField el "error"
     | none => none) with
  | some dv =>
      if dv.truthy then errMsg msg "Generation failed" ++ " (" ++ jsToStr dv ++ ")"
      else errMsg msg "Stable Diffusion error"
  | none => errMsg msg "Stable Diffusion error"

/-- Constant `maxAttempts` (geminiService.ts line 82). -/
def maxAttempts : Nat := 6

/-- Constant `delayMs` (geminiService.ts line 83): the fixed delay slept before every
poll attempt. -/
def delayMs : Nat := 5000

namespace QuantumAI

/-- Model of `QuantumAI.parseImage` (geminiService.ts lines 39-47): the `||` chain
over the five extraction candidates, returned verbatim (so the result may
be a present-but-falsy value, which every caller treats as absent). -/
def parseImage (data : Json) : Option Json :=
  jsOr (getField data "image")
    (jsOr (jsIndex0 (getField data "images"))
      (jsOr (jsIndex0 (getField data "output"))
        (jsOr (artifactsCand data)
          (dataCand data))))

/-- Structure `WaveParams` (src/types.ts): the two numeric visual parameters. -/
structure WaveParams where
  wavelength : ℚ
  amplitude : ℚ

/-- The `intensity` ternary of `QuantumAI.buildPrompt`
(geminiService.ts line 33). -/
def intensity (wavelength : ℚ) : String :=
  if wavelength > 3/2 then "intense"
  else if wavelength < 4/5 then "subtle"
  else "moderate"

/-- The `density` ternary of `QuantumAI.buildPrompt`
(geminiService.ts line 34). -/
def density (amplitude : ℚ) : String :=
  if amplitude > 3/2 then "dense"
  else if amplitude < 4/5 then "sparse"
  else "flowing"

/-- Model of `QuantumAI.buildPrompt` (geminiService.ts lines 30-37). -/
def buildPrompt (atom subject : String) (params : WaveParams) : String :=
  "A " ++ subject ++ " materializing from " ++ intensity params.wavelength ++
    " quantum energy waves, " ++ density params.amplitude ++
    " streams of turquoise and emerald light converging around " ++ atom ++
    " atoms. Set in a futuristic physics laboratory with holographic displays and volumetric lighting. Cinematic composition, ray-traced reflections, 8k ultra-detailed, atmospheric depth."

/-- Result normalization (geminiService.ts lines 138-139):
`typeof image === "string" && image.startsWith("http")` decides URL-ness;
every other value is coerced to a string and wrapped as inline PNG data. -/
def normalizeImage : Json → String
  | .str s => if jsStartsWith s "http" then s else "data:image/png;base64," ++ s
  | v => "data:image/png;base64," ++ jsToStr v

/-- One traversal of the poll loop (geminiService.ts lines 85-131),
instrumented with the number of poll requests issued (second component;
ghost data).  `image` and `lastData` are the loop variables (`image` is
falsy on entry and on every re-entry, per the loop guard `!image`),
`attempt` the current index, `fuel` the remaining attempts.  The
`sleep(delayMs)` preceding each attempt is a pure timed suspension with no
observable effect and is elided; the poll URL (`urlWithKey`) does not
influence the response in this model, which `polls` fixes per attempt.
The unparsable-body branch models the source's catch block faithfully to
Fetch semantics: there `pollRes.text()` runs after `pollRes.json()` has
already consumed the body, so the second read rejects with a TypeError and
the intended "poll parse failed" message is never built. -/
def pollStep (polls : Nat → HttpResponse) :
    Nat → Nat → Option Json → Json → (Except GenError (Option Json × Json)) × Nat
  | _, 0, image, lastData => (.ok (image, lastData), 0)
  | attempt, fuel + 1, _, _ =>
    let res := polls attempt
    if !res.ok then (.error (.pollFailed res.text), 1)
    else
      match res.json with
      | none => (.error .bodyAlreadyRead, 1)
      | some d =>
        if statusIs d "error" || truthyField d "error" then
          (.error (.pollError (errMsg (jsOr (getField d "message") (getField d "error"))
            "Stable Diffusion polling error")), 1)
        else
          let image := parseImage d
          if truthyOpt image then (.ok (image, d), 1)
          else if !statusIs d "processing" then (.ok (image, d), 1)
          else
            let next := pollStep polls (attempt + 1) fuel image d
            (next.1, next.2 + 1)

/-- The continuation after the poll loop (geminiService.ts lines 126-139
for the polling path): a loop error propagates; a falsy final `image`
raises the after-polling no-image error embedding the last payload
truncated to 400 characters; a truthy one is normalized and returned. -/
def finishPoll (out : (Except GenError (Option Json × Json)) × Nat) :
    (Except GenError String) × Nat :=
  match out.1 with
  | .error e => (.error e, out.2)
  | .ok (img, lastData) =>
    match img with
    | some v =>
      if v.truthy then (.ok (normalizeImage v), out.2)
      else (.error (.noImageAfterPolling ((stringify lastData).take 400)), out.2)
    | none => (.error (.noImageAfterPolling ((stringify lastData).take 400)), out.2)

/-- Model of `QuantumAI.requestAndPoll` (geminiService.ts lines 49-140), instrumented
with the number of poll requests issued (second component; ghost data, not
part of the source's return value).  The request headers (`buildHeaders`)
and body have no influence on the responses in this model: the environment
`env` fixes them. -/
def requestAndPollCounted (cfg : Config) (env : PollEnv) :
    (Except GenError String) × Nat :=
  if !env.initial.ok then (.error (.requestFailed env.initial.text), 0)
  else
    match env.initial.json with
    | none => (.error .initialParseFailed, 0)
    | some initialData =>
      if statusIs initialData "error" || statusIs initialData "failed" ||
          truthyField initialData "error" then
        (.error (.providerError (initialErrorMsg initialData)), 0)
      else
        let image := parseImage initialData
        if !truthyOpt image && statusIs initialData "processing" &&
            truthyField initialData "fetch_result" then
          finishPoll (pollStep env.polls 0 maxAttempts image initialData)
        else
          match image with
          | some v =>
            if v.truthy then (.ok (normalizeImage v), 0)
            else (.error (.noImage ((stringify initialData).take 400)), 0)
          | none => (.error (.noImage ((stringify initialData).take 400)), 0)

/-- The value `requestAndPoll` actually returns (the instrumented version
without the ghost attempt count). -/
def requestAndPoll (cfg : Config) (env : PollEnv) : Except GenError String :=
  (requestAndPollCounted cfg env).1

/-- The fixed headers of the initial POST (geminiService.ts lines 50-53). -/
def baseHeaders : List (String × String) :=
  [("Content-Type", "application/json"), ("Accept", "application/json")]

/-- The headers of the initial POST including the conditional credential
header (geminiService.ts lines 50-57): added only when both the key and the
header name are non-blank; the value is Bearer-prefixed exactly when the
header name lower-cases to "authorization". -/
def buildHeaders (cfg : Config) : List (String × String) :=
  if cfg.apiKey ≠ "" ∧ cfg.apiKeyHeader ≠ "" then
    baseHeaders ++ [(cfg.apiKeyHeader,
      if jsToLowerCase cfg.apiKeyHeader = "authorization" then "Bearer " ++ cfg.apiKey
      else cfg.apiKey)]
  else baseHeaders

/-- Model of `QuantumAI.generateQuantumManifestation` (geminiService.ts lines
142-181): builds the prompt and payload and delegates to `requestAndPoll`.
The payload fields (model id, sizes, seed, negative prompt, credential,
optional `init_image`) are sent to the provider but do not determine the
responses, which `env` fixes, so the observable result is that of
`requestAndPoll`. -/
def generateQuantumManifestation (cfg : Config) (env : PollEnv)
    (atom subject : String) (params : WaveParams) (baseImage : Option String) :
    Except GenError String :=
  let prompt := buildPrompt atom subject params
  let initImage :=
    match baseImage with
    | some b =>
        if jsStartsWith b "http" || jsStartsWith b "data:" then b
        else "data:image/png;base64," ++ b
    | none => ""
  requestAndPoll cfg env

end QuantumAI

open QuantumAI

/-- The five extraction candidates of `parseImage`, in source order
(geminiService.ts lines 40-45). -/
def candidates (data : Json) : List (Option Json) :=
  [getField data "image",
   jsIndex0 (getField data "images"),
   jsIndex0 (getField data "output"),
   artifactsCand data,
   dataCand data]

/-- Fold `a || b || ...` over over a candidate list, matching the shape of
`parseImage`'s expression (the last operand is returned as-is). -/
def jsOrList : List (Option Json) → Option Json
  | [] => none
  | [c] => c
  | c :: cs => jsOr c (jsOrList cs)

/-- A candidate that is either absent or a string — the shapes the
specification's extraction rule describes. -/
def strCand : Option Json → Bool
  | none => true
  | some (.str _) => true
  | some _ => false

/-- Spec-side description of extraction (spec §4.4): the first present,
non-empty string among the candidates; absent otherwise. -/
def firstNonEmptyStr : List (Option Json) → Option Json
  | [] => none
  | some (.str s) :: cs => if s = "" then firstNonEmptyStr cs else some (.str s)
  | _ :: cs => firstNonEmptyStr cs

/-- A body with both a single `image` field and an `images` array. -/
def bodyImageWins : Json :=
  .obj [("image", .str "IMG"), ("images", .arr [.str "OTHER"])]

/-- A body with only `artifacts[0].base64`. -/
def bodyArtifactsOnly : Json :=
  .obj [("artifacts", .arr [.obj [("base64", .str "B64DATA")]])]

/-- A poll response that keeps the loop going: transport-ok, with a JSON
body whose status is "processing", carrying no error field and no
extractable image. -/
def processingNoImage (r : HttpResponse) (d : Json) : Prop :=
  r.ok = true ∧ r.json = some d ∧ statusIs d "processing" = true ∧
    truthyField d "error" = false ∧ truthyOpt (parseImage d) = false

/-- A configuration with no credential configured. -/
def cfgNone : Config := ⟨"", ""⟩

/-- An initial "processing" body with a fetch-result URL, as the provider
returns for an asynchronous job. -/
def initProcessing : Json :=
  .obj [("status", .str "processing"),
        ("fetch_result", .str "https://p/poll"),
        ("id", .str "r1")]

/-- The transport-ok initial response carrying `initProcessing`. -/
def initRespProcessing : HttpResponse := ⟨true, "", some initProcessing⟩

/-- A benign poll body: status "processing", nothing else. -/
def pollBodyProcessing : Json := .obj [("status", .str "processing")]

/-- A poll body with status "processing" and an error field. -/
def pollBodyProcErr : Json :=
  .obj [("status", .str "processing"), ("error", .str "boom")]

/-- A poll body with an explicit "failed" status, a message, and an image. -/
def pollBodyFailedImg : Json :=
  .obj [("status", .str "failed"), ("message", .str "boom"),
        ("image", .str "aGVsbG8=")]

/-- An initial body carrying an image directly. -/
def initWithImage : Json := .obj [("image", .str "https://cdn/img.png")]

/-- Environment: processing initial response, every poll body benign. -/
def envAllProcessing : PollEnv :=
  ⟨initRespProcessing, fun _ => ⟨true, "", some pollBodyProcessing⟩⟩

/-- Environment: processing initial response, every poll body has status
"processing" together with an error field. -/
def envProcErr : PollEnv :=
  ⟨initRespProcessing, fun _ => ⟨true, "", some pollBodyProcErr⟩⟩

/-- A poll body with a terminal status other than "processing" and no
image, no error status and no error field. -/
def pollBodyDone : Json := .obj [("status", .str "done")]

/-- Environment: processing initial response, every poll body is the
terminal non-"processing" body. -/
def envDoneAt0 : PollEnv :=
  ⟨initRespProcessing, fun _ => ⟨true, "", some pollBodyDone⟩⟩

/-- Environment: processing initial response, every poll body has a
"failed" status alongside an extractable image. -/
def envFailedImg : PollEnv :=
  ⟨initRespProcessing, fun _ => ⟨true, "", some pollBodyFailedImg⟩⟩

/-- Environment: processing initial response, every poll response is
transport-ok with a body that is not valid JSON. -/
def envBadJson : PollEnv :=
  ⟨initRespProcessing, fun _ => ⟨true, "<html>oops</html>", none⟩⟩

/-- Environment: the initial response already carries the image. -/
def envImmediate : PollEnv :=
  ⟨⟨true, "", some initWithImage⟩, fun _ => ⟨true, "", none⟩⟩

lemma parseImage_eq_jsOrList (data : Json) :
    parseImage data = jsOrList (candidates data) := rfl

lemma jsOrList_strCand (cs : List (Option Json)) (h : cs.all strCand = true) :
    (truthyOpt (jsOrList cs) = true → jsOrList cs = firstNonEmptyStr cs) ∧
    (truthyOpt (jsOrList cs) = false → firstNonEmptyStr cs = none) := by
  induction cs with
  | nil =>
    exact ⟨fun hx => by simp [jsOrList, truthyOpt] at hx, fun _ => rfl⟩
  | cons c cs ih =>
    simp only [List.all_cons, Bool.and_eq_true] at h
    obtain ⟨hc, hcs⟩ := h
    cases cs with
    | nil =>
      rcases c with _ | v
      · exact ⟨fun hx => by simp [jsOrList, truthyOpt] at hx, fun _ => rfl⟩
      · cases v with
        | str s =>
          by_cases hs : s = "" <;>
            simp [jsOrList, firstNonEmptyStr, truthyOpt, Json.truthy, hs]
        | num q => simp [strCand] at hc
        | bool b => simp [strCand] at hc
        | null => simp [strCand] at hc
        | arr xs => simp [strCand] at hc
        | obj fs => simp [strCand] at hc
    | cons c' cs' =>
      have ihr := ih hcs
      rcases c with _ | v
      · simpa [jsOrList, jsOr, firstNonEmptyStr] using ihr
      · cases v with
        | str s =>
          by_cases hs : s = ""
          · subst hs
            simpa [jsOrList, jsOr, firstNonEmptyStr, Json.truthy] using ihr
          · constructor
            · intro _
              simp [jsOrList, jsOr, firstNonEmptyStr, Json.truthy, hs]
            · intro hx
              simp [jsOrList, jsOr, truthyOpt, Json.truthy, hs] at hx
        | num q => simp [strCand] at hc
        | bool b => simp [strCand] at hc
        | null => simp [strCand] at hc
        | arr xs => simp [strCand] at hc
        | obj fs => simp [strCand] at hc

/-- C4. The Response Parser tries, in order: the single `image` field,
`images[0]`, `output[0]`, `artifacts[0].base64`, and `data[0].b64_json` or
`data[0].url`, returning the first present non-empty value and absent
otherwise (over bodies whose candidate positions hold strings, the shapes
the specification describes; a present-but-falsy last candidate is falsy,
hence absent to every caller).  In particular, when both an `image` field
and an `images` array are present the `image` field wins, and given only
`artifacts[0].base64` that value is returned. -/
theorem parseImage_priority (data : Json)
    (h : (candidates data).all strCand = true) :
    (truthyOpt (parseImage data) = true →
      parseImage data = firstNonEmptyStr (candidates data)) ∧
    (truthyOpt (parseImage data) = false →
      firstNonEmptyStr (candidates data) = none) ∧
    parseImage bodyImageWins = some (.str "IMG") ∧
    parseImage bodyArtifactsOnly = some (.str "B64DATA") := by
  have hmain := jsOrList_strCand (candidates data) h
  rw [parseImage_eq_jsOrList]
  exact ⟨hmain.1, hmain.2, rfl, rfl⟩

theorem parseImage_priority_witness :
    (candidates bodyImageWins).all strCand = true ∧
    ((truthyOpt (parseImage bodyImageWins) = true →
      parseImage bodyImageWins = firstNonEmptyStr (candidates bodyImageWins)) ∧
    (truthyOpt (parseImage bodyImageWins) = false →
      firstNonEmptyStr (candidates bodyImageWins) = none) ∧
    parseImage bodyImageWins = some (.str "IMG") ∧
    parseImage bodyArtifactsOnly = some (.str "B64DATA")) :=
  ⟨rfl, parseImage_priority bodyImageWins rfl⟩

/-- C5. For every wavelength and amplitude (JavaScript numbers, embedded
as rationals; `1.5` and `0.8` are the literals `3/2` and `4/5`), the Prompt
Builder's intensity adjective is "intense" when wavelength > 1.5, "subtle"
when wavelength < 0.8, and "moderate" otherwise — including at the
boundaries 1.5 and 0.8 — and its density adjective is "dense" when
amplitude > 1.5, "sparse" when amplitude < 0.8, and "flowing" otherwise;
both adjectives are embedded into the returned prompt string. -/
theorem buildPrompt_adjective_thresholds (w a : ℚ) (atom subject : String) :
    (w > 3/2 → intensity w = "intense") ∧
    (w < 4/5 → intensity w = "subtle") ∧
    (4/5 ≤ w → w ≤ 3/2 → intensity w = "moderate") ∧
    (a > 3/2 → density a = "dense") ∧
    (a < 4/5 → density a = "sparse") ∧
    (4/5 ≤ a → a ≤ 3/2 → density a = "flowing") ∧
    ∃ p₁ p₂ p₃, buildPrompt atom subject ⟨w, a⟩ =
      p₁ ++ intensity w ++ p₂ ++ density a ++ p₃ := by
  refine ⟨?_, ?_, ?_, ?_, ?_, ?_, ?_⟩
  · intro h; unfold intensity; rw [if_pos h]
  · intro h; unfold intensity; rw [if_neg (by linarith), if_pos h]
  · intro h1 h2; unfold intensity; rw [if_neg (by linarith), if_neg (by linarith)]
  · intro h; unfold density; rw [if_pos h]
  · intro h; unfold density; rw [if_neg (by linarith), if_pos h]
  · intro h1 h2; unfold density; rw [if_neg (by linarith), if_neg (by linarith)]
  · refine ⟨"A " ++ subject ++ " materializing from ", " quantum energy waves, ",
      " streams of turquoise and emerald light converging around " ++ atom ++
        " atoms. Set in a futuristic physics laboratory with holographic displays and volumetric lighting. Cinematic composition, ray-traced reflections, 8k ultra-detailed, atmospheric depth.",
      ?_⟩
    simp only [buildPrompt, String.append_assoc]

theorem buildPrompt_adjective_thresholds_witness :
    intensity 2 = "intense" ∧ intensity (1/2) = "subtle" ∧
    intensity (3/2) = "moderate" ∧ intensity (4/5) = "moderate" ∧
    density 2 = "dense" ∧ density (1/2) = "sparse" ∧
    density (3/2) = "flowing" ∧ density (4/5) = "flowing" :=
  ⟨(buildPrompt_adjective_thresholds 2 2 "Hydrogen" "arctic fox").1 (by norm_num),
   (buildPrompt_adjective_thresholds (1/2) 2 "Hydrogen" "arctic fox").2.1 (by norm_num),
   (buildPrompt_adjective_thresholds (3/2) 2 "Hydrogen" "arctic fox").2.2.1
     (by norm_num) (by norm_num),
   (buildPrompt_adjective_thresholds (4/5) 2 "Hydrogen" "arctic fox").2.2.1
     (by norm_num) (by norm_num),
   (buildPrompt_adjective_thresholds 2 2 "Hydrogen" "arctic fox").2.2.2.1 (by norm_num),
   (buildPrompt_adjective_thresholds 2 (1/2) "Hydrogen" "arctic fox").2.2.2.2.1 (by norm_num),
   (buildPrompt_adjective_thresholds 2 (3/2) "Hydrogen" "arctic fox").2.2.2.2.2.1
     (by norm_num) (by norm_num),
   (buildPrompt_adjective_thresholds 2 (4/5) "Hydrogen" "arctic fox").2.2.2.2.2.1
     (by norm_num) (by norm_num)⟩

/-- C6. Result normalization: an extracted image string beginning with
the HTTP(S) scheme prefix "http" is returned unchanged; otherwise it is
returned as "data:image/png;base64," followed by the value.  Concretely,
"https://x/y.png" is returned unchanged and "aGVsbG8=" becomes
"data:image/png;base64,aGVsbG8=".  (The code's URL test is the literal
character prefix "http", which the specification calls the HTTP(S) scheme;
C10 makes the literal-prefix reading explicit.) -/
theorem normalize_scheme_result (s : String) :
    (jsStartsWith s "http" = true → normalizeImage (.str s) = s) ∧
    (jsStartsWith s "http" = false →
      normalizeImage (.str s) = "data:image/png;base64," ++ s) ∧
    normalizeImage (.str "https://x/y.png") = "https://x/y.png" ∧
    normalizeImage (.str "aGVsbG8=") = "data:image/png;base64,aGVsbG8=" := by
  refine ⟨fun h => ?_, fun h => ?_, by decide, by decide⟩
  · simp [normalizeImage, h]
  · simp [normalizeImage, h]

theorem normalize_scheme_result_witness :
    jsStartsWith "https://cdn/img.png" "http" = true ∧
    normalizeImage (.str "https://cdn/img.png") = "https://cdn/img.png" :=
  ⟨by decide, (normalize_scheme_result "https://cdn/img.png").1 (by decide)⟩

/-- C10. Normalization decides URL-ness only by the literal character
prefix "http": every extracted image string not beginning with "http" —
including one that already begins with "data:" — is wrapped again as
"data:image/png;base64," followed by the value, and every string beginning
with "http" — even one that is not a well-formed URL, such as "httpxyz" —
is returned unchanged. -/
theorem normalize_literal_http_test (s : String) :
    (jsStartsWith s "http" = false →
      normalizeImage (.str s) = "data:image/png;base64," ++ s) ∧
    (jsStartsWith s "http" = true → normalizeImage (.str s) = s) ∧
    normalizeImage (.str "data:image/png;base64,aGVsbG8=") =
      "data:image/png;base64," ++ "data:image/png;base64,aGVsbG8=" ∧
    normalizeImage (.str "httpxyz") = "httpxyz" := by
  refine ⟨fun h => ?_, fun h => ?_, by decide, by decide⟩
  · simp [normalizeImage, h]
  · simp [normalizeImage, h]

theorem normalize_literal_http_test_witness :
    jsStartsWith "data:foo" "http" = false ∧
    normalizeImage (.str "data:foo") = "data:image/png;base64," ++ "data:foo" :=
  ⟨by decide, (normalize_literal_http_test "data:foo").1 (by decide)⟩

/-- C9. Credential header logic on the initial request: when both an API
key and a key header name are configured (non-blank), the request carries
that header, valued "Bearer " followed by the key when the header name
equals "Authorization" case-insensitively, and the bare key otherwise; when
the header name or the key is blank, no credential header is added. -/
theorem credential_header_logic (key hdr : String) :
    (key ≠ "" → hdr ≠ "" → jsToLowerCase hdr = "authorization" →
      buildHeaders ⟨key, hdr⟩ = baseHeaders ++ [(hdr, "Bearer " ++ key)]) ∧
    (key ≠ "" → hdr ≠ "" → jsToLowerCase hdr ≠ "authorization" →
      buildHeaders ⟨key, hdr⟩ = baseHeaders ++ [(hdr, key)]) ∧
    buildHeaders ⟨key, ""⟩ = baseHeaders ∧
    buildHeaders ⟨"", hdr⟩ = baseHeaders := by
  refine ⟨fun hk hh ha => ?_, fun hk hh ha => ?_, ?_, ?_⟩
  · simp [buildHeaders, hk, hh, ha]
  · simp [buildHeaders, hk, hh, ha]
  · simp [buildHeaders]
  · simp [buildHeaders]

lemma statusIs_ne (d : Json) (s t : String) (h : statusIs d s = true)
    (hne : s ≠ t) : statusIs d t = false := by
  unfold statusIs at h ⊢
  rcases hf : getField d "status" with _ | v
  · simp [hf] at h
  · simp only [hf] at h ⊢
    cases v with
    | str u =>
      have hu : u = s := by simpa using h
      subst hu
      simpa using hne
    | num q => simp at h
    | bool b => simp at h
    | null => simp at h
    | arr xs => simp at h
    | obj fs => simp at h

lemma finishPoll_error (e : GenError) (n : Nat) :
    finishPoll (.error e, n) = (.error e, n) := rfl

lemma finishPoll_falsy (img : Option Json) (last : Json) (n : Nat)
    (h : truthyOpt img = false) :
    finishPoll (.ok (img, last), n) =
      (.error (.noImageAfterPolling ((stringify last).take 400)), n) := by
  rcases img with _ | v
  · rfl
  · have hv : v.truthy = false := by simpa [truthyOpt] using h
    simp [finishPoll, hv]

/-- Reaching the polling loop: under a transport-ok initial response whose
body has status "processing", a truthy fetch_result, no error field and no
extractable image, `requestAndPoll` runs the poll loop on the initial data
and finishes with `finishPoll`. -/
lemma requestAndPollCounted_enters_poll (cfg : Config) (env : PollEnv)
    (d0 : Json)
    (hok : env.initial.ok = true) (hjson : env.initial.json = some d0)
    (hs : statusIs d0 "processing" = true)
    (hf : truthyField d0 "fetch_result" = true)
    (herr : truthyField d0 "error" = false)
    (himg : truthyOpt (parseImage d0) = false) :
    requestAndPollCounted cfg env =
      finishPoll (pollStep env.polls 0 maxAttempts (parseImage d0) d0) := by
  have he : statusIs d0 "error" = false :=
    statusIs_ne d0 "processing" "error" hs (by decide)
  have hfl : statusIs d0 "failed" = false :=
    statusIs_ne d0 "processing" "failed" hs (by decide)
  unfold requestAndPollCounted
  rw [hjson]
  simp [hok, he, hfl, herr, himg, hs, hf]

/-- One poll attempt that breaks the loop: transport-ok, JSON body, no error
status or field, falsy extraction, status other than "processing". -/
lemma pollStep_break (polls : Nat → HttpResponse) (a fuel : Nat)
    (img : Option Json) (last dk : Json)
    (hok : (polls a).ok = true) (hj : (polls a).json = some dk)
    (hke : statusIs dk "error" = false) (hkerr : truthyField dk "error" = false)
    (hkimg : truthyOpt (parseImage dk) = false)
    (hks : statusIs dk "processing" = false) :
    pollStep polls a (fuel + 1) img last = (.ok (parseImage dk, dk), 1) := by
  unfold pollStep
  simp [hok, hj, hke, hkerr, hkimg, hks]

/-- One poll attempt hitting an explicit error status or error field:
the loop aborts with the provider message, before any extraction. -/
lemma pollStep_error (polls : Nat → HttpResponse) (a fuel : Nat)
    (img : Option Json) (last dk : Json)
    (hok : (polls a).ok = true) (hj : (polls a).json = some dk)
    (he : (statusIs dk "error" || truthyField dk "error") = true) :
    pollStep polls a (fuel + 1) img last =
      (.error (.pollError (errMsg (jsOr (getField dk "message") (getField dk "error"))
        "Stable Diffusion polling error")), 1) := by
  unfold pollStep
  simp [hok, hj, he]

/-- One poll attempt whose transport-ok body is not valid JSON: the catch
block re-reads the consumed body and the TypeError aborts the loop. -/
lemma pollStep_noJson (polls : Nat → HttpResponse) (a fuel : Nat)
    (img : Option Json) (last : Json)
    (hok : (polls a).ok = true) (hj : (polls a).json = none) :
    pollStep polls a (fuel + 1) img last = (.error .bodyAlreadyRead, 1) := by
  unfold pollStep
  simp [hok, hj]

theorem credential_header_logic_witness :
    ("abc123" : String) ≠ "" ∧ ("Authorization" : String) ≠ "" ∧
    jsToLowerCase "Authorization" = "authorization" ∧
    buildHeaders ⟨"abc123", "Authorization"⟩ =
      baseHeaders ++ [("Authorization", "Bearer abc123")] ∧
    jsToLowerCase "X-API-KEY" ≠ "authorization" ∧
    buildHeaders ⟨"abc123", "X-API-KEY"⟩ =
      baseHeaders ++ [("X-API-KEY", "abc123")] ∧
    buildHeaders ⟨"abc123", ""⟩ = baseHeaders :=
  ⟨by decide, by decide, by decide,
   (credential_header_logic "abc123" "Authorization").1 (by decide) (by decide) (by decide),
   by decide,
   (credential_header_logic "abc123" "X-API-KEY").2.1 (by decide) (by decide) (by decide),
   (credential_header_logic "abc123" "").2.2.1⟩

/-- One benign poll attempt: transport-ok, JSON body with status
"processing", no error status or field, falsy extraction — the loop sleeps,
polls, and re-enters with the new body as `lastData`. -/
lemma pollStep_processing (polls : Nat → HttpResponse) (a fuel : Nat)
    (img : Option Json) (last dd : Json)
    (hok : (polls a).ok = true) (hj : (polls a).json = some dd)
    (he : statusIs dd "error" = false) (herr : truthyField dd "error" = false)
    (himg : truthyOpt (parseImage dd) = false)
    (hs : statusIs dd "processing" = true) :
    pollStep polls a (fuel + 1) img last =
      ((pollStep polls (a + 1) fuel (parseImage dd) dd).1,
       (pollStep polls (a + 1) fuel (parseImage dd) dd).2 + 1) := by
  conv_lhs => rw [pollStep]
  simp [hok, hj, he, herr, himg, hs]

/-- Skipping a prefix of benign "processing" poll attempts: after `k` such
attempts the loop continues with the remaining fuel, having issued `k`
further requests, and the loop variables hold the last benign body (or are
unchanged when `k = 0`). -/
lemma pollStep_skip (polls : Nat → HttpResponse) (d : Nat → Json) :
    ∀ (k a fuel : Nat) (img : Option Json) (last : Json),
      truthyOpt img = false →
      (∀ i, i < k → processingNoImage (polls (a + i)) (d (a + i))) →
      ∃ img' last',
        truthyOpt img' = false ∧
        pollStep polls a (fuel + k) img last =
          ((pollStep polls (a + k) fuel img' last').1,
           (pollStep polls (a + k) fuel img' last').2 + k) ∧
        (k = 0 → img' = img ∧ last' = last) ∧
        (0 < k → img' = parseImage (d (a + k - 1)) ∧ last' = d (a + k - 1)) := by
  intro k
  induction k with
  | zero =>
    intro a fuel img last h0 _
    exact ⟨img, last, h0, by simp, fun _ => ⟨rfl, rfl⟩, fun hk => absurd hk (by omega)⟩
  | succ k ih =>
    intro a fuel img last h0 hp
    obtain ⟨hok, hj, hs, herr, himg⟩ := hp 0 (by omega)
    have he : statusIs (d (a + 0)) "error" = false :=
      statusIs_ne _ "processing" "error" hs (by decide)
    have hstep : pollStep polls a (fuel + k + 1) img last =
        ((pollStep polls (a + 1) (fuel + k) (parseImage (d (a + 0))) (d (a + 0))).1,
         (pollStep polls (a + 1) (fuel + k) (parseImage (d (a + 0))) (d (a + 0))).2 + 1) :=
      pollStep_processing polls a (fuel + k) img last (d (a + 0))
        (by simpa using hok) (by simpa using hj) he herr himg hs
    obtain ⟨img', last', h0', heq, hzero, hpos⟩ :=
      ih (a + 1) fuel (parseImage (d (a + 0))) (d (a + 0)) himg
        (fun i hi => by
          have hx := hp (i + 1) (by omega)
          have hi2 : a + (i + 1) = a + 1 + i := by omega
          rwa [hi2] at hx)
    have hx2 : a + 1 + k = a + (k + 1) := by omega
    refine ⟨img', last', h0', ?_, fun hk => absurd hk (by omega), ?_⟩
    · have hfe : fuel + (k + 1) = fuel + k + 1 := by omega
      rw [hfe, hstep, heq, hx2]
      simp [Nat.add_assoc]
    · intro _
      rcases Nat.eq_zero_or_pos k with hk0 | hkpos
      · subst hk0
        obtain ⟨h1, h2⟩ := hzero rfl
        have hx : a + (0 + 1) - 1 = a + 0 := by omega
        rw [hx]
        exact ⟨h1, h2⟩
      · obtain ⟨h1, h2⟩ := hpos hkpos
        have hx : a + (k + 1) - 1 = a + 1 + k - 1 := by omega
        rw [hx]
        exact ⟨h1, h2⟩

/-- If the poll loop exits successfully with a truthy image, that image was
extracted by the Response Parser from the JSON body of one of the attempted
poll responses. -/
lemma pollStep_ok_truthy (polls : Nat → HttpResponse) :
    ∀ (fuel a : Nat) (img : Option Json) (last : Json) (v : Option Json) (ld : Json),
      truthyOpt img = false →
      (pollStep polls a fuel img last).1 = .ok (v, ld) →
      truthyOpt v = true →
      ∃ i, i < a + fuel ∧ ∃ d, (polls i).json = some d ∧
        truthyOpt (parseImage d) = true := by
  intro fuel
  induction fuel with
  | zero =>
    intro a img last v ld h0 hstep ht
    simp [pollStep] at hstep
    obtain ⟨rfl, rfl⟩ := hstep
    simp [h0] at ht
  | succ fuel ih =>
    intro a img last v ld h0 hstep ht
    rw [pollStep] at hstep
    by_cases hok : (polls a).ok = false
    · simp [hok] at hstep
    · have hok' : (polls a).ok = true := by
        cases hx : (polls a).ok
        · exact absurd hx hok
        · rfl
      rcases hj : (polls a).json with _ | dd
      · simp [hok', hj] at hstep
      · simp only [hok', hj, Bool.not_true] at hstep
        by_cases herr : (statusIs dd "error" || truthyField dd "error") = true
        · simp [herr] at hstep
        · have herr' : (statusIs dd "error" || truthyField dd "error") = false := by
            simpa using herr
          by_cases himgd : truthyOpt (parseImage dd) = true
          · simp [herr', himgd] at hstep
            obtain ⟨rfl, rfl⟩ := hstep
            exact ⟨a, by omega, dd, hj, himgd⟩
          · have himgd' : truthyOpt (parseImage dd) = false := by
              simpa using himgd
            by_cases hproc : statusIs dd "processing" = true
            · simp [herr', himgd', hproc] at hstep
              obtain ⟨i, hi, dd', hj', ht'⟩ :=
                ih (a + 1) (parseImage dd) dd v ld himgd' hstep ht
              exact ⟨i, by omega, dd', hj', ht'⟩
            · have hproc' : statusIs dd "processing" = false := by
                simpa using hproc
              simp [herr', himgd', hproc'] at hstep
              obtain ⟨rfl, rfl⟩ := hstep
              simp [himgd'] at ht

/-- C1. A GenerationResult string is returned by the generate operation
only if the Response Parser extracted a truthy (non-empty) image reference
from the initial response body or from one of the at most `maxAttempts`
poll response bodies; in every other case the call fails with an error and
no result is returned (the result type is exclusive, so any non-ok outcome
carries a `GenError`). -/
theorem generation_requires_extracted_image (cfg : Config) (env : PollEnv)
    (atom subject : String) (params : WaveParams) (baseImage : Option String)
    (s : String)
    (h : generateQuantumManifestation cfg env atom subject params baseImage = .ok s) :
    (∃ d, env.initial.json = some d ∧ truthyOpt (parseImage d) = true) ∨
    (∃ i, i < maxAttempts ∧ ∃ d, (env.polls i).json = some d ∧
      truthyOpt (parseImage d) = true) := by
  have h' : (requestAndPollCounted cfg env).1 = .ok s := h
  unfold requestAndPollCounted at h'
  by_cases hok : env.initial.ok = false
  · simp [hok] at h'
  · have hok' : env.initial.ok = true := by
      cases hx : env.initial.ok
      · exact absurd hx hok
      · rfl
    rcases hj : env.initial.json with _ | d0
    · simp [hok', hj] at h'
    · simp only [hok', hj, Bool.not_true] at h'
      by_cases hie : (statusIs d0 "error" || statusIs d0 "failed" ||
          truthyField d0 "error") = true
      · simp [hie] at h'
      · have hie' : (statusIs d0 "error" || statusIs d0 "failed" ||
            truthyField d0 "error") = false := by simpa using hie
        by_cases h0 : truthyOpt (parseImage d0) = true
        · -- the polling branch is not taken: its condition starts with !image
          simp [hie', h0] at h'
          rcases hv : parseImage d0 with _ | v
          · rw [hv] at h0; simp [truthyOpt] at h0
          · exact .inl ⟨d0, rfl, h0⟩
        · have h0' : truthyOpt (parseImage d0) = false := by simpa using h0
          by_cases hcond : (statusIs d0 "processing" &&
              truthyField d0 "fetch_result") = true
          · -- polling path
            simp [hie', h0', hcond] at h'
            -- h' is about finishPoll of the loop's outcome
            rcases hout : (pollStep env.polls 0 maxAttempts (parseImage d0) d0).1
              with e | p
            · rw [finishPoll] at h'
              rw [hout] at h'
              simp at h'
            · obtain ⟨img, lastData⟩ := p
              rw [finishPoll] at h'
              rw [hout] at h'
              rcases img with _ | v
              · simp at h'
              · by_cases hvt : v.truthy = true
                · have := pollStep_ok_truthy env.polls maxAttempts 0
                    (parseImage d0) d0 (some v) lastData h0'
                    (by rw [hout]) (by simpa [truthyOpt] using hvt)
                  obtain ⟨i, hi, dd, hjd, htd⟩ := this
                  exact .inr ⟨i, by simpa using hi, dd, hjd, htd⟩
                · have hvf : v.truthy = false := by simpa using hvt
                  simp [hvf] at h'
          · have hcond' : (statusIs d0 "processing" &&
                truthyField d0 "fetch_result") = false := by simpa using hcond
            simp [hie', h0', hcond'] at h'
            rcases hv : parseImage d0 with _ | v
            · rw [hv] at h'
              simp at h'
            · rw [hv] at h'
              have hvf : v.truthy = false := by
                rw [hv] at h0'
                simpa [truthyOpt] using h0'
              simp [hvf] at h'

theorem generation_requires_extracted_image_witness :
    generateQuantumManifestation cfgNone envImmediate "Hydrogen" "arctic fox"
      ⟨1, 1⟩ none = .ok "https://cdn/img.png" ∧
    ((∃ d, envImmediate.initial.json = some d ∧ truthyOpt (parseImage d) = true) ∨
     (∃ i, i < maxAttempts ∧ ∃ d, (envImmediate.polls i).json = some d ∧
       truthyOpt (parseImage d) = true)) :=
  ⟨rfl, generation_requires_extracted_image cfgNone envImmediate "Hydrogen"
    "arctic fox" ⟨1, 1⟩ none "https://cdn/img.png" rfl⟩

/-- C2 counterexample. A run in which the initial response has status
"processing" with a fetch-result URL and no extractable image, and every
poll response has status "processing" and no extractable image — yet the
call aborts at the first poll attempt with the provider's error message,
because that poll body also carries an error field, which the claim's
premise does not exclude.  Only one poll request is issued and the failure
is not the after-polling no-image error. -/
theorem polling_six_attempts_counterexample :
    statusIs initProcessing "processing" = true ∧
    truthyField initProcessing "fetch_result" = true ∧
    truthyOpt (parseImage initProcessing) = false ∧
    statusIs pollBodyProcErr "processing" = true ∧
    truthyOpt (parseImage pollBodyProcErr) = false ∧
    requestAndPollCounted cfgNone envProcErr = (.error (.pollError "boom"), 1) :=
  ⟨rfl, rfl, rfl, rfl, rfl, rfl⟩

/-- C2 amended. If the initial response is transport-ok with status
"processing", a truthy fetch-result URL, no extractable image and no error
field, and every one of the first `maxAttempts` poll responses is
transport-ok with a JSON body of status "processing", no error field and no
extractable image, then the loop issues exactly `maxAttempts` = 6 poll
requests — each preceded by one fixed `delayMs` = 5000 sleep — and the call
fails with the after-polling no-image error embedding the 6th poll body's
payload truncated to 400 characters. -/
theorem polling_exhausts_six_attempts (cfg : Config) (env : PollEnv)
    (d0 : Json) (d : Nat → Json)
    (hok : env.initial.ok = true) (hjson : env.initial.json = some d0)
    (hs : statusIs d0 "processing" = true)
    (hf : truthyField d0 "fetch_result" = true)
    (herr : truthyField d0 "error" = false)
    (himg : truthyOpt (parseImage d0) = false)
    (hp : ∀ i, i < maxAttempts → processingNoImage (env.polls i) (d i)) :
    requestAndPollCounted cfg env =
      (.error (.noImageAfterPolling ((stringify (d 5)).take 400)), maxAttempts) ∧
    maxAttempts = 6 ∧ delayMs = 5000 := by
  refine ⟨?_, rfl, rfl⟩
  rw [requestAndPollCounted_enters_poll cfg env d0 hok hjson hs hf herr himg]
  obtain ⟨img', last', h0', heq, hzero, hpos⟩ :=
    pollStep_skip env.polls d 6 0 0 (parseImage d0) d0 himg
      (fun i hi => by rw [Nat.zero_add]; exact hp i (by simpa [maxAttempts] using hi))
  obtain ⟨h1, h2⟩ := hpos (by omega)
  have hm : maxAttempts = 0 + 6 := rfl
  have hz : pollStep env.polls (0 + 6) 0 img' last' = (.ok (img', last'), 0) := rfl
  rw [hm, heq, hz]
  show finishPoll (.ok (img', last'), 6) = _
  rw [finishPoll_falsy img' last' 6 h0', h2]

theorem polling_exhausts_six_attempts_witness :
    (∀ i, i < maxAttempts →
      processingNoImage (envAllProcessing.polls i) pollBodyProcessing) ∧
    (requestAndPollCounted cfgNone envAllProcessing =
      (.error (.noImageAfterPolling ((stringify pollBodyProcessing).take 400)),
        maxAttempts) ∧
     maxAttempts = 6 ∧ delayMs = 5000) :=
  ⟨fun _ _ => ⟨rfl, rfl, rfl, rfl, rfl⟩,
   polling_exhausts_six_attempts cfgNone envAllProcessing initProcessing
     (fun _ => pollBodyProcessing) rfl rfl rfl rfl rfl rfl
     (fun _ _ => ⟨rfl, rfl, rfl, rfl, rfl⟩)⟩

/-- C3. If, at a poll attempt before the 6th (0-based index `k < 5`),
the poll response is transport-ok with a JSON body whose status is other
than "processing", no explicit error status and no error field, and no
extractable image — the earlier attempts all having been benign
"processing" responses — then the loop stops at that attempt: the call
fails with the after-polling no-image error embedding that body's payload,
after exactly `k + 1` poll requests, strictly fewer than `maxAttempts`. -/
theorem polling_stops_early_on_non_processing (cfg : Config) (env : PollEnv)
    (d0 : Json) (d : Nat → Json) (k : Nat) (dk : Json)
    (hk : k < 5)
    (hok : env.initial.ok = true) (hjson : env.initial.json = some d0)
    (hs : statusIs d0 "processing" = true)
    (hf : truthyField d0 "fetch_result" = true)
    (herr : truthyField d0 "error" = false)
    (himg : truthyOpt (parseImage d0) = false)
    (hpre : ∀ i, i < k → processingNoImage (env.polls i) (d i))
    (hkok : (env.polls k).ok = true) (hkj : (env.polls k).json = some dk)
    (hks : statusIs dk "processing" = false)
    (hke : statusIs dk "error" = false)
    (hkerr : truthyField dk "error" = false)
    (hkimg : truthyOpt (parseImage dk) = false) :
    requestAndPollCounted cfg env =
      (.error (.noImageAfterPolling ((stringify dk).take 400)), k + 1) ∧
    k + 1 < maxAttempts := by
  constructor
  · rw [requestAndPollCounted_enters_poll cfg env d0 hok hjson hs hf herr himg]
    obtain ⟨img', last', h0', heq, hzero, hpos⟩ :=
      pollStep_skip env.polls d k 0 (6 - k) (parseImage d0) d0 himg
        (fun i hi => by rw [Nat.zero_add]; exact hpre i hi)
    have hm : maxAttempts = 6 - k + k := by simp only [maxAttempts]; omega
    rw [hm, heq]
    have h6k : 6 - k = 6 - k - 1 + 1 := by omega
    have hbreak : pollStep env.polls (0 + k) (6 - k) img' last' =
        (.ok (parseImage dk, dk), 1) := by
      rw [h6k]
      exact pollStep_break env.polls (0 + k) (6 - k - 1) img' last' dk
        (by rwa [Nat.zero_add]) (by rwa [Nat.zero_add]) hke hkerr hkimg hks
    rw [hbreak]
    show finishPoll (.ok (parseImage dk, dk), 1 + k) = _
    rw [finishPoll_falsy (parseImage dk) dk (1 + k) hkimg]
    have hc : 1 + k = k + 1 := by omega
    rw [hc]
  · simp only [maxAttempts]; omega

theorem polling_stops_early_on_non_processing_witness :
    statusIs pollBodyDone "processing" = false ∧
    truthyOpt (parseImage pollBodyDone) = false ∧
    (requestAndPollCounted cfgNone envDoneAt0 =
      (.error (.noImageAfterPolling ((stringify pollBodyDone).take 400)), 0 + 1) ∧
     0 + 1 < maxAttempts) :=
  ⟨rfl, rfl,
   polling_stops_early_on_non_processing cfgNone envDoneAt0 initProcessing
     (fun _ => pollBodyDone) 0 pollBodyDone (by omega) rfl rfl rfl rfl rfl rfl
     (fun i hi => absurd hi (by omega)) rfl rfl rfl rfl rfl rfl⟩

/-- C7 counterexample. A poll response whose JSON body carries an
explicit "failed" status (with a message) does not make the call fail: the
"failed" status is only recognized on the initial response, so the loop
proceeds to image extraction and the call succeeds with the image carried
by that same body. -/
theorem poll_failed_status_counterexample :
    statusIs pollBodyFailedImg "failed" = true ∧
    requestAndPollCounted cfgNone envFailedImg =
      (.ok "data:image/png;base64,aGVsbG8=", 1) :=
  ⟨rfl, rfl⟩

/-- C7 amended. A poll response whose JSON body carries an explicit
"error" status or a truthy error field (a "failed" status is only
recognized on the initial response, not at poll stage) makes the whole call
fail at that attempt with the provider's message — without attempting image
extraction from that body (no premise constrains its extractable image) and
without performing the remaining poll attempts. -/
theorem poll_error_status_fails_immediately (cfg : Config) (env : PollEnv)
    (d0 : Json) (d : Nat → Json) (k : Nat) (dk : Json)
    (hk : k < maxAttempts)
    (hok : env.initial.ok = true) (hjson : env.initial.json = some d0)
    (hs : statusIs d0 "processing" = true)
    (hf : truthyField d0 "fetch_result" = true)
    (herr : truthyField d0 "error" = false)
    (himg : truthyOpt (parseImage d0) = false)
    (hpre : ∀ i, i < k → processingNoImage (env.polls i) (d i))
    (hkok : (env.polls k).ok = true) (hkj : (env.polls k).json = some dk)
    (he : (statusIs dk "error" || truthyField dk "error") = true) :
    requestAndPollCounted cfg env =
      (.error (.pollError (errMsg (jsOr (getField dk "message") (getField dk "error"))
        "Stable Diffusion polling error")), k + 1) := by
  rw [requestAndPollCounted_enters_poll cfg env d0 hok hjson hs hf herr himg]
  obtain ⟨img', last', h0', heq, hzero, hpos⟩ :=
    pollStep_skip env.polls d k 0 (6 - k) (parseImage d0) d0 himg
      (fun i hi => by rw [Nat.zero_add]; exact hpre i hi)
  have hm : maxAttempts = 6 - k + k := by
    simp only [maxAttempts] at hk ⊢
    omega
  rw [hm, heq]
  have h6k : 6 - k = 6 - k - 1 + 1 := by
    simp only [maxAttempts] at hk
    omega
  have herrstep : pollStep env.polls (0 + k) (6 - k) img' last' =
      (.error (.pollError (errMsg (jsOr (getField dk "message") (getField dk "error"))
        "Stable Diffusion polling error")), 1) := by
    rw [h6k]
    exact pollStep_error env.polls (0 + k) (6 - k - 1) img' last' dk
      (by rwa [Nat.zero_add]) (by rwa [Nat.zero_add]) he
  rw [herrstep]
  show finishPoll (.error (.pollError (errMsg (jsOr (getField dk "message")
    (getField dk "error")) "Stable Diffusion polling error")), 1 + k) = _
  have hc : 1 + k = k + 1 := by omega
  rw [finishPoll_error, hc]

theorem poll_error_status_fails_immediately_witness :
    (statusIs pollBodyProcErr "error" || truthyField pollBodyProcErr "error") = true ∧
    requestAndPollCounted cfgNone envProcErr =
      (.error (.pollError (errMsg (jsOr (getField pollBodyProcErr "message")
        (getField pollBodyProcErr "error")) "Stable Diffusion polling error")), 0 + 1) :=
  ⟨rfl,
   poll_error_status_fails_immediately cfgNone envProcErr initProcessing
     (fun _ => pollBodyProcErr) 0 pollBodyProcErr (by simp [maxAttempts])
     rfl rfl rfl rfl rfl rfl (fun i hi => absurd hi (by omega)) rfl rfl rfl⟩

/-- C8, the code evaluated at the failing input. A poll HTTP response
that succeeds at the transport level but whose body is not valid JSON: the
call does fail immediately, but with the TypeError from the catch block's
second read of the already-consumed body (`pollRes.text()` after
`pollRes.json()`), so the surfaced error does not embed the raw response
text as the claim — and the source's own `catch` block — intend. -/
theorem poll_parse_failure_body_reread :
    (envBadJson.polls 0).ok = true ∧
    (envBadJson.polls 0).json = none ∧
    (envBadJson.polls 0).text = "<html>oops</html>" ∧
    requestAndPollCounted cfgNone envBadJson = (.error .bodyAlreadyRead, 1) :=
  ⟨rfl, rfl, rfl, rfl⟩
